import Mathlib

/-!
Verification of the patrol_subnet event-collection pipeline and the
missed-blocks repository.

The repository under verification has two parts:

* `MissedBlocksRepository`
  (`src/patrol/validation/persistence/missed_blocks_repository.py`):
  real code, translated here as explicit state passing over a list of
  `MissedBlockRec` rows; the nondeterministic draws (uuid4, now) and the
  success of a commit are made explicit parameters, and the exception
  behaviour of a bulk call is recorded in an explicit `raised` flag.

* `EventCollector` (`patrol.chain_data.event_collector`): the
  implementation file is absent from the sources; only its test suite
  (`tests/chain_data/test_event_collector.py`) is present.  Its
  conversion rule, window computation and fetch-and-store orchestration
  are therefore modelled from the specification, with the external
  collaborators (chain client, classifier) abstracted as function
  parameters and the side-effecting calls recorded in an explicit trace.
-/

namespace Patrol

/-- A dynamically typed value as it appears in the Python dictionaries:
a string, an integer, or Python's `None`. -/
inductive Val where
  | str : String → Val
  | int : Int → Val
  | null : Val
deriving DecidableEq, Repr

/-- A Python dictionary with string keys, modelled as an association list.
Key membership is observable, so "present with a null value" and
"absent key" are distinguishable, as the storage-schema contract requires. -/
abbrev Record := List (String × Val)

/-- A normalized processed event as produced by the event classifier:
`{coldkey_source, coldkey_destination, category, type, evidence}` where
`evidence` is a mapping always containing `block_number` and `rao_amount`
plus category-specific keys. -/
structure ProcessedEvent where
  coldkey_source : Val
  coldkey_destination : Val
  category : String
  type : String
  evidence : Record
deriving DecidableEq, Repr

/-- Reading a key from an evidence mapping as Python's `dict.get` does:
the stored value when present, `None` otherwise. -/
def evidenceGet (ev : Record) (k : String) : Val :=
  match ev.lookup k with
  | some v => v
  | none => Val.null

/-- The five staking-only storage keys. -/
def stakingKeys : List String :=
  ["source_net_uid", "destination_net_uid", "delegate_hotkey_source",
   "delegate_hotkey_destination", "alpha_amount"]

/-- Modelled from the spec: the Conversion Rule `_convert_to_db_format` of
`EventCollector`, whose implementation file is absent from the sources.
Always present: `coldkey_source`, `coldkey_destination`,
`edge_category = category`, `edge_type = type`,
`block_number = evidence.block_number`, `rao_amount = evidence.rao_amount`.
If `category == "staking"` the record additionally carries the five staking
keys, each taken from `evidence` when present there and otherwise set to an
explicit null; for any other category none of the five staking keys is
present at all. -/
def convertToDbFormat (e : ProcessedEvent) : Record :=
  let base : Record :=
    [("coldkey_source", e.coldkey_source),
     ("coldkey_destination", e.coldkey_destination),
     ("edge_category", Val.str e.category),
     ("edge_type", Val.str e.type),
     ("block_number", evidenceGet e.evidence "block_number"),
     ("rao_amount", evidenceGet e.evidence "rao_amount")]
  if e.category = "staking" then
    base ++ stakingKeys.map (fun k => (k, evidenceGet e.evidence k))
  else
    base

/-- Modelled from the spec: the start-block choice of the Window
Scheduler loop of `EventCollector` (implementation file absent):
`last_synced_block + 1` when set, else the Edge Store's highest stored
block plus one when the store is non-empty, else the configured lower
block-number bound. -/
def computeStartBlock (lastSynced highestInDb : Option Nat) (lowerLimit : Nat) : Nat :=
  match lastSynced with
  | some b => b + 1
  | none =>
    match highestInDb with
    | some h => h + 1
    | none => lowerLimit

/-- Modelled from the spec: the window computed by one scheduler
iteration of `EventCollector` (implementation file absent):
`start_block` as in `computeStartBlock` and
`end_block = min(current chain head, start_block + 1000)`. -/
def computeWindow (lastSynced highestInDb : Option Nat) (lowerLimit head : Nat) :
    Nat × Nat :=
  let s := computeStartBlock lastSynced highestInDb lowerLimit
  (s, min head (s + 1000))

/-- The raw ledger events of one block, kept abstract as a list of values. -/
abbrev RawEvents := List Val

/-- The observable outcome of one call to the Chain Client's streaming
fetch: the per-block queue entries pushed before the completion sentinel
(each block at most once), and the block numbers it recorded as missed. -/
structure ChainClientResult where
  entries : List (Nat × RawEvents)
  missed : List Nat

/-- The trace of collaborator calls made by one fetch-and-store
invocation: streaming-fetch calls with their block list and batch size,
classifier calls with the merged accumulator, Edge Store bulk inserts,
and Missed-Block Ledger bulk appends with their error message. -/
structure FetchTrace where
  streamCalls : List (List Nat × Nat)
  classifierCalls : List (List (Nat × RawEvents))
  insertCalls : List (List Record)
  missedCalls : List (List Nat × String)

/-- Modelled from the spec: `_fetch_and_store_events` of `EventCollector`
(implementation file absent).  It builds the full inclusive block list
`[start..finish]`, invokes the Chain Client's streaming fetch once with
that list and the configured batch size, merges the per-block queue
entries consumed before the sentinel into a single accumulator (the
union; each block is produced at most once), then — when the accumulator
is non-empty — invokes the classifier once with it and issues exactly one
bulk insert of the converted records, and — when the missed set is
non-empty — issues exactly one bulk ledger append with a descriptive
error message.  The Chain Client and the classifier are abstracted as
function parameters and the side effects are returned as a trace. -/
def fetchAndStoreEvents (client : List Nat → Nat → ChainClientResult)
    (classifier : List (Nat × RawEvents) → List ProcessedEvent)
    (batchSize start finish : Nat) : FetchTrace :=
  let blocks := List.range' start (finish + 1 - start)
  let res := client blocks batchSize
  let acc := res.entries
  { streamCalls := [(blocks, batchSize)]
    classifierCalls := if acc.isEmpty then [] else [acc]
    insertCalls :=
      if acc.isEmpty then [] else [(classifier acc).map convertToDbFormat]
    missedCalls :=
      if res.missed.isEmpty then [] else [(res.missed, "Failed fetching blocks!")] }

/-- A row of the `missed_blocks` table: `id` (uuid string primary key),
`block_number`, `created_at` (timestamp, abstracted as a number) and the
optional `error_message`.  Translated from the `MissedBlock` mapped class
in `missed_blocks_repository.py`. -/
structure MissedBlockRec where
  id : String
  block_number : Nat
  created_at : Nat
  error_message : Option String
deriving DecidableEq, Repr

set_option linter.unusedVariables false in
/-- Translated from `MissedBlock.from_block`: builds a row from a block
number and optional error message.  The uuid draw and the clock reading
made inside the Python function are surfaced as the explicit `freshId`
and `now` arguments; the `retry_count` parameter is accepted exactly as
in the source, where the function body never reads it. -/
def MissedBlock.from_block (block_number : Nat) (error_message : Option String)
    (retry_count : Nat) (freshId : String) (now : Nat) : MissedBlockRec :=
  { id := freshId
    block_number := block_number
    created_at := now
    error_message := error_message }

/-- Translated from `MissedBlocksRepository.add_missed_blocks`: builds one
`MissedBlock.from_block` row per block number (with the call's shared
error message and retry count 0 as in the source), adds them all in one
session and commits.  `idGen` and `timeGen` supply the per-row uuid and
clock draws; `commitOk` is whether the commit succeeds.  On failure the
session is rolled back (the stored rows are unchanged) and the exception
is logged, not re-raised, so the returned flag — whether an exception
propagated to the caller — is always `false`. -/
def addMissedBlocks (db : List MissedBlockRec) (block_numbers : List Nat)
    (error_message : Option String) (idGen : Nat → String) (timeGen : Nat → Nat)
    (commitOk : Bool) : List MissedBlockRec × Bool :=
  let missed_blocks := block_numbers.enum.map fun p =>
    MissedBlock.from_block p.2 error_message 0 (idGen p.1) (timeGen p.1)
  if commitOk then (db ++ missed_blocks, false) else (db, false)

/-- Translated from `MissedBlocksRepository.get_all_missed_blocks`:
`select(distinct(MissedBlock.block_number))` collected into a set, i.e.
the deduplicated block numbers of all stored rows. -/
def getAllMissedBlocks (db : List MissedBlockRec) : List Nat :=
  (db.map (fun r => r.block_number)).dedup

/-- The outcome of one `remove_blocks` call: the resulting table state,
whether a database session was opened at all, and whether an exception
propagated to the caller. -/
structure RemoveResult where
  db : List MissedBlockRec
  sessionOpened : Bool
  raised : Bool
deriving DecidableEq, Repr

/-- Translated from `MissedBlocksRepository.remove_blocks`: an empty
block list returns immediately before any session is opened; otherwise a
single delete of every row whose `block_number` is in the list is
executed and committed.  `commitOk` is whether the execute-and-commit
succeeds; on failure the session is rolled back and the exception is
logged, not re-raised. -/
def removeBlocks (db : List MissedBlockRec) (block_numbers : List Nat)
    (commitOk : Bool) : RemoveResult :=
  if block_numbers.isEmpty then
    { db := db, sessionOpened := false, raised := false }
  else if commitOk then
    { db := db.filter (fun r => !(block_numbers.contains r.block_number))
      sessionOpened := true
      raised := false }
  else
    { db := db, sessionOpened := true, raised := false }

/-- A concrete staking event mirroring the repository's stake-event test:
evidence carries `destination_net_uid`, `alpha_amount` and
`delegate_hotkey_destination` but not `source_net_uid` or
`delegate_hotkey_source`. -/
def stakeEventEx : ProcessedEvent :=
  { coldkey_source := Val.str "source_key"
    coldkey_destination := Val.str "dest_key"
    category := "staking"
    type := "add"
    evidence := [("block_number", Val.int 123456), ("rao_amount", Val.int 2000000),
                 ("destination_net_uid", Val.int 1), ("alpha_amount", Val.int 1000),
                 ("delegate_hotkey_destination", Val.str "dest_hotkey")] }

/-- A concrete balance-transfer event mirroring the repository's
transfer-event test. -/
def transferEventEx : ProcessedEvent :=
  { coldkey_source := Val.str "source_key"
    coldkey_destination := Val.str "dest_key"
    category := "balance"
    type := "transfer"
    evidence := [("block_number", Val.int 123456), ("rao_amount", Val.int 1000000)] }

/-- A concrete Chain Client behaviour mirroring the streaming test:
blocks 100 and 103 yield queue entries, blocks 101, 102, 104 and 105 are
recorded as missed; everything reported refers only to requested blocks. -/
def clientEx : List Nat → Nat → ChainClientResult := fun bl _ =>
  { entries := (bl.filter (fun b => b == 100 || b == 103)).map (fun b => (b, []))
    missed := bl.filter (fun b => b == 101 || b == 102 || b == 104 || b == 105) }

/-- A concrete classifier behaviour: returns one transfer and one staking
processed event for any non-empty window accumulator. -/
def classifierEx : List (Nat × RawEvents) → List ProcessedEvent :=
  fun _ => [transferEventEx, stakeEventEx]

/-- Claim C1: for every ProcessedEvent whose category is `staking`, the
conversion rule yields a record in which each of the five staking keys is
present and bound to the evidence value when the key occurs in the
evidence mapping, and to an explicit null when it does not — the key is
never absent. -/
theorem staking_conversion_fields (e : ProcessedEvent) (h : e.category = "staking") :
    ∀ k ∈ stakingKeys,
      (convertToDbFormat e).lookup k = some (evidenceGet e.evidence k) ∧
      (∀ v, e.evidence.lookup k = some v → (convertToDbFormat e).lookup k = some v) ∧
      (e.evidence.lookup k = none → (convertToDbFormat e).lookup k = some Val.null) := by
  intro k hk
  fin_cases hk <;>
    refine ⟨?_, fun v hv => ?_, fun hv => ?_⟩ <;>
    simp [convertToDbFormat, h, stakingKeys, List.lookup, evidenceGet, *]

/-- Witness for C1: on the concrete staking event, `source_net_uid` is
absent from the evidence yet present in the converted record (bound to
the evidence lookup, which is null there). -/
theorem staking_conversion_fields_witness :
    (convertToDbFormat stakeEventEx).lookup "source_net_uid" =
      some (evidenceGet stakeEventEx.evidence "source_net_uid") :=
  (staking_conversion_fields stakeEventEx rfl "source_net_uid" (by decide)).1

/-- Claim C2: for every ProcessedEvent whose category is not `staking`,
the conversion rule yields a record whose keys are exactly the six base
keys, carrying the coldkeys, the category as `edge_category`, the type as
`edge_type`, and the evidence's `block_number` and `rao_amount`; none of
the five staking-only keys is present at all. -/
theorem nonstaking_conversion_fields (e : ProcessedEvent) (h : e.category ≠ "staking") :
    (convertToDbFormat e).map Prod.fst =
      ["coldkey_source", "coldkey_destination", "edge_category", "edge_type",
       "block_number", "rao_amount"] ∧
    (convertToDbFormat e).lookup "coldkey_source" = some e.coldkey_source ∧
    (convertToDbFormat e).lookup "coldkey_destination" = some e.coldkey_destination ∧
    (convertToDbFormat e).lookup "edge_category" = some (Val.str e.category) ∧
    (convertToDbFormat e).lookup "edge_type" = some (Val.str e.type) ∧
    (convertToDbFormat e).lookup "block_number" =
      some (evidenceGet e.evidence "block_number") ∧
    (convertToDbFormat e).lookup "rao_amount" =
      some (evidenceGet e.evidence "rao_amount") ∧
    ∀ k ∈ stakingKeys, (convertToDbFormat e).lookup k = none := by
  refine ⟨?_, ?_, ?_, ?_, ?_, ?_, ?_, ?_⟩ <;>
    first
    | (intro k hk; fin_cases hk <;> simp [convertToDbFormat, h, List.lookup])
    | simp [convertToDbFormat, h, List.lookup]

/-- Witness for C2: the concrete balance-transfer event converts to a
record with exactly the six base keys. -/
theorem nonstaking_conversion_fields_witness :
    (convertToDbFormat transferEventEx).map Prod.fst =
      ["coldkey_source", "coldkey_destination", "edge_category", "edge_type",
       "block_number", "rao_amount"] :=
  (nonstaking_conversion_fields transferEventEx (by decide)).1

/-- Claim C3: the scheduler's window starts at `last_synced_block + 1`
when set, else at the Edge Store's highest block plus one when the store
is non-empty, else at the configured lower bound, and ends at
`min(head, start + 1000)`; in particular highest stored block 400000 with
head 5000000 gives the window (400001, 401001), and highest stored block
499950 with head 500000 gives (499951, 500000). -/
theorem sync_window_computation :
    (∀ b hi lim head, (computeWindow (some b) hi lim head).1 = b + 1) ∧
    (∀ hi lim head, (computeWindow none (some hi) lim head).1 = hi + 1) ∧
    (∀ lim head, (computeWindow none none lim head).1 = lim) ∧
    (∀ ls hi lim head, (computeWindow ls hi lim head).2 =
        min head ((computeWindow ls hi lim head).1 + 1000)) ∧
    (∀ lim, computeWindow none (some 400000) lim 5000000 = (400001, 401001)) ∧
    (∀ lim, computeWindow none (some 499950) lim 500000 = (499951, 500000)) := by
  refine ⟨fun b hi lim head => rfl, fun hi lim head => rfl, fun lim head => rfl,
          fun ls hi lim head => rfl, fun lim => ?_, fun lim => ?_⟩ <;>
    simp [computeWindow, computeStartBlock]

/-- Claim C4: for every window with `start ≤ finish`, fetch-and-store
calls the Chain Client's streaming fetch exactly once, with the full
inclusive ascending block list `start, start+1, …, finish` (of length
`finish - start + 1`, without duplicates) and the configured batch size;
and — under the Chain Client contract that it only reports requested
blocks as missed — every block recorded as missed lies in the window. -/
theorem fetch_passes_full_range (client : List Nat → Nat → ChainClientResult)
    (classifier : List (Nat × RawEvents) → List ProcessedEvent)
    (batchSize start finish : Nat) (hle : start ≤ finish)
    (hclient : ∀ bl bs m, m ∈ (client bl bs).missed → m ∈ bl) :
    (fetchAndStoreEvents client classifier batchSize start finish).streamCalls =
      [(List.range' start (finish + 1 - start), batchSize)] ∧
    (List.range' start (finish + 1 - start)).length = finish - start + 1 ∧
    (List.range' start (finish + 1 - start)).Nodup ∧
    (∀ b, b ∈ List.range' start (finish + 1 - start) ↔ start ≤ b ∧ b ≤ finish) ∧
    (∀ i (hi : i < (List.range' start (finish + 1 - start)).length),
      (List.range' start (finish + 1 - start)).get ⟨i, hi⟩ = start + i) ∧
    (∀ c ∈ (fetchAndStoreEvents client classifier batchSize start finish).missedCalls,
      ∀ m ∈ c.1, start ≤ m ∧ m ≤ finish) := by
  refine ⟨rfl, ?_, List.nodup_range' _ _, fun b => ?_, fun i hi => ?_, fun c hc m hm => ?_⟩
  · rw [List.length_range']
    omega
  · rw [List.mem_range']
    constructor
    · rintro ⟨j, hj, rfl⟩
      omega
    · rintro ⟨h1, h2⟩
      exact ⟨b - start, by omega, by omega⟩
  · simp [List.get_eq_getElem]
  · simp only [fetchAndStoreEvents] at hc
    by_cases hmiss :
        (client (List.range' start (finish + 1 - start)) batchSize).missed.isEmpty
    · simp [hmiss] at hc
    · simp [hmiss] at hc
      subst hc
      have hmem := hclient _ _ _ hm
      rw [List.mem_range'] at hmem
      obtain ⟨i, hi, rfl⟩ := hmem
      omega

/-- Witness for C4: with the concrete client and the window 100..105, the
streaming fetch is called once with the six-block list and batch size 50,
using a client that only ever reports requested blocks as missed. -/
theorem fetch_passes_full_range_witness :
    (fetchAndStoreEvents clientEx classifierEx 50 100 105).streamCalls =
      [(List.range' 100 (105 + 1 - 100), 50)] :=
  (fetch_passes_full_range clientEx classifierEx 50 100 105 (by decide)
    (fun bl bs m hm => List.mem_of_mem_filter hm)).1

/-- Claim C5: for every window whose merged accumulator (the union of the
per-block queue entries consumed before the sentinel) is non-empty, the
classifier is invoked exactly once, with a mapping whose key set equals
exactly the accumulator's block numbers, and the Edge Store receives
exactly one bulk insert whose records are, in order, one converted record
per ProcessedEvent the classifier returned. -/
theorem classifier_and_store_once (client : List Nat → Nat → ChainClientResult)
    (classifier : List (Nat × RawEvents) → List ProcessedEvent)
    (batchSize start finish : Nat)
    (hne : (client (List.range' start (finish + 1 - start)) batchSize).entries ≠ []) :
    (fetchAndStoreEvents client classifier batchSize start finish).classifierCalls =
      [(client (List.range' start (finish + 1 - start)) batchSize).entries] ∧
    ((fetchAndStoreEvents client classifier batchSize start finish).classifierCalls.map
        (fun c => c.map Prod.fst)) =
      [((client (List.range' start (finish + 1 - start)) batchSize).entries).map Prod.fst] ∧
    (fetchAndStoreEvents client classifier batchSize start finish).insertCalls =
      [(classifier ((client (List.range' start (finish + 1 - start)) batchSize).entries)).map
        convertToDbFormat] ∧
    ∀ ins ∈ (fetchAndStoreEvents client classifier batchSize start finish).insertCalls,
      ins.length =
        (classifier
          ((client (List.range' start (finish + 1 - start)) batchSize).entries)).length := by
  have hni :
      ((client (List.range' start (finish + 1 - start)) batchSize).entries).isEmpty = false := by
    simpa [List.isEmpty_iff] using hne
  refine ⟨?_, ?_, ?_, ?_⟩ <;>
    simp [fetchAndStoreEvents, hni]

/-- Witness for C5: with the concrete client the window 100..105 yields a
non-empty accumulator, and the classifier is called exactly once with it. -/
theorem classifier_and_store_once_witness :
    (fetchAndStoreEvents clientEx classifierEx 50 100 105).classifierCalls =
      [(clientEx (List.range' 100 (105 + 1 - 100)) 50).entries] :=
  (classifier_and_store_once clientEx classifierEx 50 100 105 (by decide)).1

/-- Claim C6: for every window whose missed-block set is non-empty at the
end of the fetch, the Missed-Block Ledger receives exactly one bulk
append, carrying exactly the collected missed block numbers together with
a non-empty descriptive error message. -/
theorem missed_blocks_flushed_once (client : List Nat → Nat → ChainClientResult)
    (classifier : List (Nat × RawEvents) → List ProcessedEvent)
    (batchSize start finish : Nat)
    (hne : (client (List.range' start (finish + 1 - start)) batchSize).missed ≠ []) :
    (fetchAndStoreEvents client classifier batchSize start finish).missedCalls =
      [((client (List.range' start (finish + 1 - start)) batchSize).missed,
        "Failed fetching blocks!")] ∧
    "Failed fetching blocks!" ≠ "" := by
  have hni :
      ((client (List.range' start (finish + 1 - start)) batchSize).missed).isEmpty = false := by
    simpa [List.isEmpty_iff] using hne
  exact ⟨by simp [fetchAndStoreEvents, hni], by decide⟩

/-- Witness for C6: with the concrete client the window 100..105 misses
blocks 101, 102, 104 and 105, and exactly one ledger append with those
blocks and the descriptive message is issued. -/
theorem missed_blocks_flushed_once_witness :
    (fetchAndStoreEvents clientEx classifierEx 50 100 105).missedCalls =
      [((clientEx (List.range' 100 (105 + 1 - 100)) 50).missed,
        "Failed fetching blocks!")] :=
  (missed_blocks_flushed_once clientEx classifierEx 50 100 105 (by decide)).1

/-- Claim C7: a failing bulk write in the missed-blocks repository never
propagates an exception to the caller, and each call is atomic: a
successful `add_missed_blocks` appends exactly all its rows, a failed one
leaves the table unchanged (rollback), and likewise a failed
`remove_blocks` leaves the table unchanged. -/
theorem repository_writes_never_raise :
    (∀ db blocks msg idGen timeGen ok,
      (addMissedBlocks db blocks msg idGen timeGen ok).2 = false) ∧
    (∀ db blocks msg idGen timeGen,
      (addMissedBlocks db blocks msg idGen timeGen true).1 =
        db ++ blocks.enum.map fun p =>
          MissedBlock.from_block p.2 msg 0 (idGen p.1) (timeGen p.1)) ∧
    (∀ db blocks msg idGen timeGen,
      (addMissedBlocks db blocks msg idGen timeGen false).1 = db) ∧
    (∀ db blocks ok, (removeBlocks db blocks ok).raised = false) ∧
    (∀ db blocks, (removeBlocks db blocks false).db = db) := by
  refine ⟨fun db blocks msg idGen timeGen ok => ?_,
          fun db blocks msg idGen timeGen => rfl,
          fun db blocks msg idGen timeGen => rfl,
          fun db blocks ok => ?_, fun db blocks => ?_⟩
  · cases ok <;> rfl
  · by_cases h : blocks.isEmpty <;> cases ok <;> simp [removeBlocks, h]
  · by_cases h : blocks.isEmpty <;> simp [removeBlocks, h]

/-- Claim C8: `get_all_missed_blocks` returns the deduplicated block
numbers of the stored rows — a number is returned precisely when some
stored row carries it, and the returned collection has no duplicates. -/
theorem get_all_missed_blocks_dedup :
    (∀ db n, n ∈ getAllMissedBlocks db ↔ ∃ r ∈ db, r.block_number = n) ∧
    (∀ db, (getAllMissedBlocks db).Nodup) := by
  constructor
  · intro db n
    simp [getAllMissedBlocks, List.mem_dedup, List.mem_map]
  · intro db
    exact List.nodup_dedup _

/-- Claim C9: calling `remove_blocks` with an empty block list performs
no database operation: no session is opened, nothing is raised, and the
table is unchanged. -/
theorem remove_blocks_empty_noop :
    ∀ db ok, removeBlocks db [] ok =
      { db := db, sessionOpened := false, raised := false } := by
  intro db ok
  rfl

/-- Claim C10: `MissedBlock.from_block` does not depend on its
`retry_count` argument — with the same uuid and clock draws, any two
retry counts produce identical records in every field. -/
theorem from_block_ignores_retry_count :
    ∀ bn msg r1 r2 freshId now,
      MissedBlock.from_block bn msg r1 freshId now =
        MissedBlock.from_block bn msg r2 freshId now := by
  intro bn msg r1 r2 freshId now
  rfl

end Patrol
